import Mathlib

/-!
Shallow embedding of the NPV calculator in `app.py`.

Python floats are modelled as exact rationals (`ℚ`), Python `int` as `ℤ`.
The three helpers `npv`, `build_savings_cf` and `euro_fmt` are translated
directly from the source; the grid-assembly loop that feeds `npv` is
modelled by `cell_cfs` and `npv_matrix`.
-/

namespace NPVApp

/-- `npv(rate, cashflows)`: `sum(cf / ((1 + rate) ** t) for t, cf in enumerate(cashflows))`.
Index 0 is time zero.  Division is the total rational division of Lean
(`x / 0 = 0`); `npvE` below models the raising variant. -/
def npv (rate : ℚ) (cashflows : List ℚ) : ℚ :=
  (cashflows.enum.map (fun tc => tc.2 / (1 + rate) ^ tc.1)).sum

/-- Python `range(a, b)`: the integers `a, a+1, …, b-1` (empty when `b ≤ a`). -/
def pyRange (a b : ℤ) : List ℤ :=
  (List.range (b - a).toNat).map (fun (i : ℕ) => a + (i : ℤ))

/-- `build_savings_cf`: for `y in range(1, years + 1)` emit
`dh_annual_cost_now * (1+dh_growth)^(y-1)
  - (gshp_annual_elec_use * (elec_price_now * (1+elec_growth)^(y-1)) + ml_monthly_cost * 12)`. -/
def build_savings_cf (years : ℤ) (dh_annual_cost_now elec_price_now gshp_annual_elec_use
    dh_growth elec_growth : ℚ) (ml_monthly_cost : ℚ := 0) : List ℚ :=
  (pyRange 1 (years + 1)).map (fun y =>
    dh_annual_cost_now * (1 + dh_growth) ^ (y - 1) -
      (gshp_annual_elec_use * (elec_price_now * (1 + elec_growth) ^ (y - 1)) +
        ml_monthly_cost * 12))

/-- The electricity-price growth rates of the sensitivity grid (`elec_growths`). -/
def elec_growths : List ℚ := [0, 1/100, 2/100, 3/100, 4/100]

/-- The district-heating growth rates of the sensitivity grid (`dh_growths`). -/
def dh_growths : List ℚ := [0, 1/100, 2/100, 3/100, 4/100]

/-- The cash-flow list built for one grid cell: `[-abs(ml_capex)] + savings`. -/
def cell_cfs (years : ℤ) (dh_annual_now elec_price_now ml_elec_use dg eg
    ml_monthly_cost ml_capex : ℚ) : List ℚ :=
  [-(abs ml_capex)] ++
    build_savings_cf years dh_annual_now elec_price_now ml_elec_use dg eg ml_monthly_cost

/-- The 5×5 grid loop: one `npv` evaluation per `(elec growth, dh growth)` pair. -/
def npv_matrix (years : ℤ) (rate_pct dh_annual_now elec_price_now ml_elec_use
    ml_monthly_cost ml_capex : ℚ) : List (List ℚ) :=
  elec_growths.map (fun eg =>
    dh_growths.map (fun dg =>
      npv rate_pct (cell_cfs years dh_annual_now elec_price_now ml_elec_use dg eg
        ml_monthly_cost ml_capex)))

/-- The summation of `npv` with Python's error semantics: rational division by
zero raises `ZeroDivisionError` instead of returning a value.  `t` is the
index supplied by `enumerate`. -/
def npvSumE (rate : ℚ) : ℕ → List ℚ → Except String ℚ
  | _, [] => Except.ok 0
  | t, cf :: rest =>
      if ((1 + rate) ^ t : ℚ) = 0 then Except.error "ZeroDivisionError"
      else
        match npvSumE rate (t + 1) rest with
        | Except.error e => Except.error e
        | Except.ok s => Except.ok (cf / (1 + rate) ^ t + s)

/-- `npv` with Python's exception behaviour: the result, or the exception the
sum raises. -/
def npvE (rate : ℚ) (cashflows : List ℚ) : Except String ℚ :=
  npvSumE rate 0 cashflows

lemma sum_enumFrom_succ (r : ℚ) (l : List ℚ) : ∀ n : ℕ,
    ((List.enumFrom (n + 1) l).map (fun tc => tc.2 / (1 + r) ^ tc.1)).sum
      = ((List.enumFrom n l).map (fun tc => tc.2 / (1 + r) ^ tc.1)).sum / (1 + r) := by
  induction l with
  | nil => intro n; simp
  | cons a l ih =>
      intro n
      simp only [List.enumFrom_cons, List.map_cons, List.sum_cons, ih, pow_succ, ← div_div,
        add_div]

lemma npv_cons (r a : ℚ) (l : List ℚ) : npv r (a :: l) = a + npv r l / (1 + r) := by
  simp only [npv, List.enum_eq_enumFrom, List.enumFrom_cons, List.map_cons, List.sum_cons,
    sum_enumFrom_succ, pow_zero, div_one]

lemma npv_eq_sum (r : ℚ) (cfs : List ℚ) :
    npv r cfs = ∑ t ∈ Finset.range cfs.length, cfs.getD t 0 / (1 + r) ^ t := by
  induction cfs with
  | nil => simp [npv]
  | cons a l ih =>
      rw [npv_cons, ih, List.length_cons, Finset.sum_range_succ']
      simp only [List.getD_cons_succ, List.getD_cons_zero, pow_zero, div_one, pow_succ,
        ← div_div, ← Finset.sum_div]
      exact add_comm _ _

lemma sum_range_getD (l : List ℚ) :
    ∑ t ∈ Finset.range l.length, l.getD t 0 = l.sum := by
  induction l with
  | nil => simp
  | cons a l ih =>
      rw [List.length_cons, Finset.sum_range_succ']
      simp only [List.getD_cons_succ, List.getD_cons_zero, ih, List.sum_cons]
      exact add_comm _ _

/-- Claim C1: for every discount rate `r` with `1 + r ≠ 0` and every cash-flow
list, `npv r cashflows` equals the sum over `t` of `cashflows[t] / (1+r)^t`. -/
theorem npv_eq_discounted_sum (r : ℚ) (cfs : List ℚ) (_hr : 1 + r ≠ 0) :
    npv r cfs = ∑ t ∈ Finset.range cfs.length, cfs.getD t 0 / (1 + r) ^ t :=
  npv_eq_sum r cfs

/-- Witness for claim C1 at `r = 1`, `cashflows = [2, 4]`. -/
theorem npv_eq_discounted_sum_witness :
    (1 + 1 : ℚ) ≠ 0 ∧
      npv 1 [2, 4]
        = ∑ t ∈ Finset.range ([2, 4] : List ℚ).length, ([2, 4] : List ℚ).getD t 0 / (1 + 1) ^ t :=
  ⟨by simp, npv_eq_discounted_sum 1 [2, 4] (by simp)⟩

/-- Claim C6: a zero discount rate gives the plain sum of the cash flows. -/
theorem npv_zero_rate (cfs : List ℚ) : npv 0 cfs = cfs.sum := by
  rw [npv_eq_sum]
  simpa using sum_range_getD cfs

/-- Claim C7: a single-element sequence is returned undiscounted (index 0 has
discount factor `(1+r)^0 = 1`). -/
theorem npv_singleton (X r : ℚ) (_hr : 1 + r ≠ 0) : npv r [X] = X := by
  simp [npv_eq_sum]

/-- Witness for claim C7 at `X = 7`, `r = 1`. -/
theorem npv_singleton_witness : (1 + 1 : ℚ) ≠ 0 ∧ npv 1 [7] = 7 :=
  ⟨by simp, npv_singleton 7 1 (by simp)⟩

/-- Claim C5 (amended): on a cash-flow list with at least one entry at index
`≥ 1`, all of which are strictly positive, a strictly larger discount rate
with `0 < 1 + r₁` strictly decreases `npv`. -/
theorem npv_strictAnti_in_rate (cfs : List ℚ) (r1 r2 : ℚ) (hlt : r1 < r2) (h1 : 0 < 1 + r1)
    (hlen : 2 ≤ cfs.length)
    (hpos : ∀ i : ℕ, i < cfs.length → 1 ≤ i → 0 < cfs.getD i 0) :
    npv r2 cfs < npv r1 cfs := by
  rw [npv_eq_sum, npv_eq_sum]
  apply Finset.sum_lt_sum
  · intro i hi
    rcases Nat.eq_zero_or_pos i with rfl | hi1
    · simp
    · exact le_of_lt (div_lt_div_of_pos_left (hpos i (Finset.mem_range.mp hi) hi1)
        (pow_pos h1 i)
        (pow_lt_pow_left₀ (by linarith) (le_of_lt h1) (Nat.pos_iff_ne_zero.mp hi1)))
  · refine ⟨1, Finset.mem_range.mpr (by omega), ?_⟩
    exact div_lt_div_of_pos_left (hpos 1 (by omega) le_rfl) (pow_pos h1 1)
      (pow_lt_pow_left₀ (by linarith) (le_of_lt h1) one_ne_zero)

/-- Witness for claim C5 (amended): `cfs = [-10, 1, 1]`, `r₁ = 0`, `r₂ = 1`. -/
theorem npv_strictAnti_in_rate_witness :
    (0 : ℚ) < 1 ∧ (0 : ℚ) < 1 + 0 ∧ 2 ≤ ([-10, 1, 1] : List ℚ).length ∧
      (∀ i : ℕ, i < ([-10, 1, 1] : List ℚ).length → 1 ≤ i → 0 < ([-10, 1, 1] : List ℚ).getD i 0) ∧
      npv 1 [-10, 1, 1] < npv 0 [-10, 1, 1] :=
  ⟨by decide, by simp, by decide, by decide,
    npv_strictAnti_in_rate [-10, 1, 1] 0 1 (by decide) (by simp) (by decide) (by decide)⟩

/-- Counterexample to claim C5 as stated: a sequence with no entry at index
`≥ 1` satisfies the positivity premise vacuously, yet `npv` does not strictly
decrease between the rates `0` and `1`. -/
theorem npv_not_strictAnti_on_singleton :
    (0 : ℚ) < 1 ∧ (0 : ℚ) < 1 + 0 ∧
      (∀ i : ℕ, i < ([5] : List ℚ).length → 1 ≤ i → 0 < ([5] : List ℚ).getD i 0) ∧
      ¬ npv 1 [5] < npv 0 [5] := by
  refine ⟨by decide, by simp, by decide, ?_⟩
  have h1 : npv 1 [5] = 5 := by simp [npv_eq_sum]
  have h0 : npv 0 [5] = 5 := by simp [npv_eq_sum]
  rw [h1, h0]
  exact lt_irrefl 5

lemma pyRange_length (a b : ℤ) : (pyRange a b).length = (b - a).toNat := by
  unfold pyRange
  rw [List.length_map, List.length_range]

lemma pyRange_getElem (a b : ℤ) (i : ℕ) (h : i < (pyRange a b).length) :
    (pyRange a b)[i] = a + (i : ℤ) := by
  unfold pyRange
  rw [List.getElem_map, List.getElem_range]

lemma build_savings_cf_length (years : ℤ) (C P Q g p m : ℚ) :
    (build_savings_cf years C P Q g p m).length = years.toNat := by
  unfold build_savings_cf
  rw [List.length_map, pyRange_length]
  simp

lemma build_savings_cf_getD (years : ℤ) (C P Q g p m : ℚ) (i : ℕ) (hi : i < years.toNat) :
    (build_savings_cf years C P Q g p m).getD i 0
      = C * (1 + g) ^ i - (Q * (P * (1 + p) ^ i) + m * 12) := by
  have hlen : i < (build_savings_cf years C P Q g p m).length := by
    rw [build_savings_cf_length]; exact hi
  rw [List.getD_eq_getElem _ _ hlen]
  unfold build_savings_cf
  rw [List.getElem_map, pyRange_getElem]
  rw [add_sub_cancel_left, zpow_natCast, zpow_natCast]

/-- Claim C2: the `y`-th element (1-based) of the savings projection equals
`C*(1+g)^(y-1) - (Q*P*(1+p)^(y-1) + 12*m)`; year 1 uses exponent 0. -/
theorem build_savings_cf_year_formula (years : ℤ) (y : ℕ) (C P Q g p m : ℚ)
    (hy1 : 1 ≤ y) (hyh : (y : ℤ) ≤ years) :
    (build_savings_cf years C P Q g p m).getD (y - 1) 0
      = C * (1 + g) ^ (y - 1) - (Q * P * (1 + p) ^ (y - 1) + 12 * m) := by
  have hi : y - 1 < years.toNat := by omega
  rw [build_savings_cf_getD years C P Q g p m (y - 1) hi]
  ring

/-- Witness for claim C2 at `years = 2`, `y = 1` and the default scenario
numbers of the sidebar. -/
theorem build_savings_cf_year_formula_witness :
    1 ≤ 1 ∧ ((1 : ℕ) : ℤ) ≤ 2 ∧
      (build_savings_cf 2 40000 (12/100) 120000 0 0 0).getD (1 - 1) 0
        = 40000 * (1 + 0) ^ (1 - 1) - (120000 * (12/100) * (1 + 0) ^ (1 - 1) + 12 * 0) :=
  ⟨by decide, by decide, build_savings_cf_year_formula 2 1 40000 (12/100) 120000 0 0 0
    (by decide) (by decide)⟩

/-- Claim C3: for a horizon of at least one year the projection has exactly
`years` elements, and element `i` carries year `i + 1` (exponent `i`), so the
list is in ascending year order. -/
theorem build_savings_cf_length_and_order (years : ℤ) (C P Q g p m : ℚ) (h : 1 ≤ years) :
    ((build_savings_cf years C P Q g p m).length : ℤ) = years ∧
      ∀ i : ℕ, i < years.toNat →
        (build_savings_cf years C P Q g p m).getD i 0
          = C * (1 + g) ^ i - (Q * (P * (1 + p) ^ i) + m * 12) :=
  ⟨by rw [build_savings_cf_length]; exact Int.toNat_of_nonneg (by omega),
   fun i hi => build_savings_cf_getD years C P Q g p m i hi⟩

/-- Witness for claim C3 at `years = 3`. -/
theorem build_savings_cf_length_and_order_witness :
    (1 : ℤ) ≤ 3 ∧
      (((build_savings_cf 3 2 3 5 0 0 7).length : ℤ) = 3 ∧
        ∀ i : ℕ, i < (3 : ℤ).toNat →
          (build_savings_cf 3 2 3 5 0 0 7).getD i 0
            = 2 * (1 + 0) ^ i - (5 * (3 * (1 + 0) ^ i) + 7 * 12)) :=
  ⟨by decide, build_savings_cf_length_and_order 3 2 3 5 0 0 7 (by decide)⟩

/-- Claim C4: each grid cell's cash-flow list is `-|investment|` consed onto
the projector output, so index 0 holds `-|investment| ≤ 0` and the length is
`years + 1`. -/
theorem cell_cfs_shape (years : ℤ) (h : 1 ≤ years) (dh pe qty dg eg m capex : ℚ) :
    cell_cfs years dh pe qty dg eg m capex
        = -(abs capex) :: build_savings_cf years dh pe qty dg eg m ∧
      (cell_cfs years dh pe qty dg eg m capex).getD 0 0 = -(abs capex) ∧
      (cell_cfs years dh pe qty dg eg m capex).getD 0 0 ≤ 0 ∧
      ((cell_cfs years dh pe qty dg eg m capex).length : ℤ) = years + 1 := by
  refine ⟨rfl, rfl, ?_, ?_⟩
  · show -(abs capex) ≤ 0
    exact neg_nonpos.mpr (abs_nonneg capex)
  · have hl : (cell_cfs years dh pe qty dg eg m capex).length = years.toNat + 1 := by
      simp [cell_cfs, build_savings_cf_length]
    rw [hl]
    omega

/-- Witness for claim C4 at `years = 20` and arbitrary concrete parameters. -/
theorem cell_cfs_shape_witness :
    (1 : ℤ) ≤ 20 ∧
      (cell_cfs 20 1 2 3 4 5 6 7 = -(abs 7) :: build_savings_cf 20 1 2 3 4 5 6 ∧
        (cell_cfs 20 1 2 3 4 5 6 7).getD 0 0 = -(abs 7) ∧
        (cell_cfs 20 1 2 3 4 5 6 7).getD 0 0 ≤ 0 ∧
        ((cell_cfs 20 1 2 3 4 5 6 7).length : ℤ) = 20 + 1) :=
  ⟨by decide, cell_cfs_shape 20 (by decide) 1 2 3 4 5 6 7⟩

lemma npvSumE_rate_neg_one (r : ℚ) (hr : 1 + r = 0) (a b : ℚ) (l : List ℚ) :
    npvSumE r 0 (a :: b :: l) = Except.error "ZeroDivisionError" := by
  have h0 : ((1 + r) ^ (0 : ℕ) : ℚ) = 1 := pow_zero _
  have h1 : ((1 + r) ^ (0 + 1 : ℕ) : ℚ) = 0 := by rw [pow_one, hr]
  rw [npvSumE, if_neg (by rw [h0]; exact one_ne_zero), npvSumE, if_pos h1]

/-- Claim C8 (amended): at discount rate exactly `-100%` with at least one
entry past index 0, the evaluation raises `ZeroDivisionError` — a raised
exception, not a silently propagated infinite or NaN value, but not the
`InvalidRateError` the claim names. -/
theorem npvE_rate_neg_one_raises (r : ℚ) (cfs : List ℚ) (hr : 1 + r = 0)
    (hlen : 2 ≤ cfs.length) :
    npvE r cfs = Except.error "ZeroDivisionError" := by
  match cfs, hlen with
  | a :: b :: l, _ => exact npvSumE_rate_neg_one r hr a b l

/-- Witness for claim C8 (amended) at `r = -1`, `cfs = [0, 1]`. -/
theorem npvE_rate_neg_one_raises_witness :
    (1 + (-1) : ℚ) = 0 ∧ 2 ≤ ([0, 1] : List ℚ).length ∧
      npvE (-1) [0, 1] = Except.error "ZeroDivisionError" :=
  ⟨by simp, by decide, npvE_rate_neg_one_raises (-1) [0, 1] (by simp) (by decide)⟩

/-- Counterexample to claim C8 as stated: the exception raised at rate `-100%`
is `ZeroDivisionError`, not the explicit domain error `InvalidRateError` the
claim requires. -/
theorem npvE_error_is_not_invalid_rate :
    npvE (-1) [0, 1] = Except.error "ZeroDivisionError" ∧
      npvE (-1) [0, 1] ≠ (Except.error "InvalidRateError" : Except String ℚ) := by
  have hz : npvE (-1) [0, 1] = Except.error "ZeroDivisionError" :=
    npvSumE_rate_neg_one (-1) (by simp) 0 1 []
  refine ⟨hz, ?_⟩
  rw [hz]
  intro hEq
  injection hEq with hstr
  exact (by decide : ¬ ("ZeroDivisionError" : String) = "InvalidRateError") hstr

/-- Claim C9 (amended): a non-positive horizon yields the empty list — the
function silently returns `[]` instead of raising `InvalidInputError`. -/
theorem build_savings_cf_nonpos_horizon (years : ℤ) (h : years ≤ 0) (C P Q g p m : ℚ) :
    build_savings_cf years C P Q g p m = [] := by
  have h0 : years.toNat = 0 := by omega
  simp [build_savings_cf, pyRange, h0]

/-- Witness for claim C9 (amended) at `years = 0`. -/
theorem build_savings_cf_nonpos_horizon_witness :
    (0 : ℤ) ≤ 0 ∧ build_savings_cf 0 1 2 3 4 5 6 = [] :=
  ⟨by decide, build_savings_cf_nonpos_horizon 0 (by decide) 1 2 3 4 5 6⟩

/-- Counterexample to claim C9 as stated: at horizons `0` and `-3` the
projection evaluates to the empty list, so no error is raised. -/
theorem build_savings_cf_zero_horizon_empty :
    build_savings_cf 0 40000 (12/100) 120000 0 0 0 = [] ∧
      build_savings_cf (-3) 40000 (12/100) 120000 0 0 0 = [] :=
  ⟨rfl, rfl⟩

/-- Insert `,` before every third digit; the input and output run from the
least significant digit. -/
def sep3 : ℕ → List Char → List Char
  | _, [] => []
  | k, c :: cs =>
      if 0 < k ∧ k % 3 = 0 then ',' :: c :: sep3 (k + 1) cs else c :: sep3 (k + 1) cs

/-- Decimal digits of `n`, grouped in threes by `,` as Python's `,` format
spec does. -/
def groupThousands (n : ℕ) : String :=
  String.mk (sep3 0 (Nat.toDigits 10 n).reverse).reverse

/-- `n` in decimal, left-padded with zeros to width `w`. -/
def padLeftZeros (w : ℕ) (n : ℕ) : String :=
  String.mk (List.replicate (w - (Nat.repr n).length) '0') ++ Nat.repr n

/-- Round to the nearest integer, ties to the even neighbour, as Python's
fixed-point float formatting does on the scaled value. -/
def roundHalfEven (q : ℚ) : ℤ :=
  if q - (⌊q⌋ : ℚ) < 1/2 then ⌊q⌋
  else if 1/2 < q - (⌊q⌋ : ℚ) then ⌊q⌋ + 1
  else if ⌊q⌋ % 2 = 0 then ⌊q⌋ else ⌊q⌋ + 1

/-- The body of Python's `f"{x:,.Df}"` on an exact rational: round to `D`
decimal places, group the integer part in thousands, keep the sign. -/
def formatCommaFixed (x : ℚ) (decimals : ℕ) : String :=
  let n := roundHalfEven (x * 10 ^ decimals)
  let sign := if n < 0 ∨ (n = 0 ∧ x < 0) then "-" else ""
  if decimals = 0 then sign ++ groupThousands (n.natAbs / 10 ^ decimals)
  else
    sign ++ groupThousands (n.natAbs / 10 ^ decimals) ++ "." ++
      padLeftZeros decimals (n.natAbs % 10 ^ decimals)

/-- Python's `f"{x:,.{decimals}f}"`: a negative precision makes the format
spec invalid and raises `ValueError`; otherwise the formatted string is
produced. -/
def pyFormatCommaFixed (x : ℚ) (decimals : ℤ) : Except String String :=
  if decimals < 0 then Except.error "ValueError"
  else Except.ok (formatCommaFixed x decimals.toNat)

/-- `euro_fmt`: try the comma/point format, swap `,` for a space and `.` for
`,`, append `" €"`; on any exception fall back to `str(x) + " €"`. -/
def euro_fmt (x : ℚ) (decimals : ℤ := 0) : String :=
  match pyFormatCommaFixed x decimals with
  | Except.ok s => ((s.replace "," " ").replace "." ",") ++ " €"
  | Except.error _ => toString x ++ " €"

/-- Claim C10: `euro_fmt` is total — every input yields a string, either the
formatted amount or the fallback rendering, and both end in `" €"`; being a
pure function it cannot modify the value it formats. -/
theorem euro_fmt_total_and_suffix (x : ℚ) (d : ℤ) :
    (euro_fmt x d
        = (((formatCommaFixed x d.toNat).replace "," " ").replace "." ",") ++ " €" ∨
      euro_fmt x d = toString x ++ " €") ∧
    ∃ s : String, euro_fmt x d = s ++ " €" := by
  unfold euro_fmt pyFormatCommaFixed
  by_cases hd : d < 0
  · rw [if_pos hd]
    exact ⟨Or.inr rfl, toString x, rfl⟩
  · rw [if_neg hd]
    exact ⟨Or.inl rfl, ((formatCommaFixed x d.toNat).replace "," " ").replace "." ",", rfl⟩

end NPVApp
